import Mathlib

/-!
Shallow embedding of the `servertime` Go microservice
(`main.go`, with the earlier minimal variant in `part_000`).

The service has two components:
* `currentTime` — `time.Now().Format(time.RFC822Z)`, embedded as a pure
  function of the wall-clock instant (`GoTime`), together with an embedding
  of `time.Parse(time.RFC822Z, ·)` for the round-trip properties;
* `handler` — builds a `ServiceResult`, marshals it with `encoding/json`
  semantics, and writes either the JSON success response or the
  `http.Error` failure response.
-/

/-- A wall-clock instant as the Go `time.Time` fields that are relevant to
the RFC822Z layout, plus seconds (which the layout drops).  `offsetMinutes`
is the zone offset east of UTC in minutes. -/
structure GoTime where
  year : Nat
  month : Nat
  day : Nat
  hour : Nat
  minute : Nat
  second : Nat
  offsetMinutes : Int
deriving DecidableEq

/-- Two-digit zero-padded decimal rendering, as Go `Format` produces for the
layout chunks `02`, `06`, `15`, `04` and the offset digits. -/
def pad2 (n : Nat) : List Char :=
  [Nat.digitChar (n / 10), Nat.digitChar (n % 10)]

/-- Go three-letter month abbreviations (`time.Month.String` short forms). -/
def monthChars : Nat → List Char
  | 1 => ['J', 'a', 'n']
  | 2 => ['F', 'e', 'b']
  | 3 => ['M', 'a', 'r']
  | 4 => ['A', 'p', 'r']
  | 5 => ['M', 'a', 'y']
  | 6 => ['J', 'u', 'n']
  | 7 => ['J', 'u', 'l']
  | 8 => ['A', 'u', 'g']
  | 9 => ['S', 'e', 'p']
  | 10 => ['O', 'c', 't']
  | 11 => ['N', 'o', 'v']
  | 12 => ['D', 'e', 'c']
  | _ => []

/-- Sign character of the numeric zone offset, as Go writes for `-0700`. -/
def signChar (off : Int) : Char :=
  if off < 0 then '-' else '+'

/-- Embedding of `t.Format(time.RFC822Z)`: the fixed layout
`02 Jan 06 15:04 -0700` — two-digit day, month abbreviation, two-digit
year, 24-hour `HH:MM`, and the signed four-digit numeric offset. -/
def formatRFC822Z (t : GoTime) : String :=
  String.mk
    (pad2 t.day ++ (' ' :: (monthChars t.month ++ (' ' :: (pad2 (t.year % 100) ++
      (' ' :: (pad2 t.hour ++ (':' :: (pad2 t.minute ++
      (' ' :: (signChar t.offsetMinutes ::
        (pad2 (t.offsetMinutes.natAbs / 60) ++
          pad2 (t.offsetMinutes.natAbs % 60)))))))))))))

/-- Embedding of `currentTime` from `main.go`: the Time Formatter renders
the invocation instant with the RFC822Z layout. -/
def currentTime (now : GoTime) : String :=
  formatRFC822Z now

/-- Decimal digit value of a character, as Go `atoi`/`getnum` reads it. -/
def digitVal (c : Char) : Option Nat :=
  if 48 ≤ c.toNat ∧ c.toNat ≤ 57 then some (c.toNat - 48) else none

/-- Read a fixed-width two-digit decimal number. -/
def parse2 : List Char → Option (Nat × List Char)
  | c1 :: c2 :: rest =>
    match digitVal c1, digitVal c2 with
    | some d1, some d2 => some (d1 * 10 + d2, rest)
    | _, _ => none
  | _ => none

/-- Consume one expected literal layout character. -/
def expectChar (c : Char) : List Char → Option (List Char)
  | d :: rest => if d = c then some rest else none
  | [] => none

/-- Read a three-letter month abbreviation back to its month number. -/
def parseMonth : List Char → Option (Nat × List Char)
  | 'J' :: 'a' :: 'n' :: rest => some (1, rest)
  | 'F' :: 'e' :: 'b' :: rest => some (2, rest)
  | 'M' :: 'a' :: 'r' :: rest => some (3, rest)
  | 'A' :: 'p' :: 'r' :: rest => some (4, rest)
  | 'M' :: 'a' :: 'y' :: rest => some (5, rest)
  | 'J' :: 'u' :: 'n' :: rest => some (6, rest)
  | 'J' :: 'u' :: 'l' :: rest => some (7, rest)
  | 'A' :: 'u' :: 'g' :: rest => some (8, rest)
  | 'S' :: 'e' :: 'p' :: rest => some (9, rest)
  | 'O' :: 'c' :: 't' :: rest => some (10, rest)
  | 'N' :: 'o' :: 'v' :: rest => some (11, rest)
  | 'D' :: 'e' :: 'c' :: rest => some (12, rest)
  | _ => none

/-- Read the sign of a numeric zone offset. -/
def parseSign : List Char → Option (Int × List Char)
  | c :: rest =>
    if c = '+' then some (1, rest)
    else if c = '-' then some (-1, rest)
    else none
  | [] => none

/-- Go `Parse` maps a two-digit year `69–99` to `19xx` and `00–68` to
`20xx`. -/
def mapYear2 (y2 : Nat) : Nat :=
  if 69 ≤ y2 then 1900 + y2 else 2000 + y2

/-- Gregorian leap-year rule, as Go `isLeap`. -/
def isLeap (y : Nat) : Bool :=
  y % 4 == 0 && (y % 100 != 0 || y % 400 == 0)

/-- Days in a month, as Go `daysIn`. -/
def daysInMonth (m y : Nat) : Nat :=
  match m with
  | 2 => if isLeap y then 29 else 28
  | 4 | 6 | 9 | 11 => 30
  | _ => 31

/-- Embedding of `time.Parse(time.RFC822Z, s)`: reads the fixed layout and
applies the range validations Go performs (hour, minute, day-in-month for
the mapped year), with unset fields (seconds) left at zero.  Trailing input
beyond the layout is an error, as in Go. -/
def parseRFC822Z (s : String) : Option GoTime := do
  let (day, r1) ← parse2 s.data
  let r2 ← expectChar ' ' r1
  let (month, r3) ← parseMonth r2
  let r4 ← expectChar ' ' r3
  let (y2, r5) ← parse2 r4
  let r6 ← expectChar ' ' r5
  let (hour, r7) ← parse2 r6
  let r8 ← expectChar ':' r7
  let (minute, r9) ← parse2 r8
  let r10 ← expectChar ' ' r9
  let (sgn, r11) ← parseSign r10
  let (ohr, r12) ← parse2 r11
  let (omin, r13) ← parse2 r12
  if r13 = [] then
    if hour < 24 ∧ minute < 60 ∧ 1 ≤ day ∧ day ≤ daysInMonth month (mapYear2 y2) then
      some (GoTime.mk (mapYear2 y2) month day hour minute 0 (sgn * (ohr * 60 + omin)))
    else none
  else none

/-- Validity of an instant: the field ranges `time.Now()` guarantees — a
real calendar date in the instant's own year, a 24-hour clock reading, and
a zone offset below a day in magnitude. -/
def GoTime.wf (t : GoTime) : Prop :=
  1 ≤ t.month ∧ t.month ≤ 12 ∧
    1 ≤ t.day ∧ t.day ≤ daysInMonth t.month t.year ∧
    t.hour < 24 ∧ t.minute < 60 ∧ t.second < 60 ∧
    t.offsetMinutes.natAbs < 24 * 60

instance (t : GoTime) : Decidable t.wf := by
  unfold GoTime.wf
  infer_instance

/-- One character of Go `encoding/json` string encoding (`Marshal` has
HTML escaping on): `"`, `\`, newline, carriage return and tab get
two-character escapes, other control characters become `\u00XX`, the
HTML-unsafe `<`, `>`, `&` and the line separators U+2028/U+2029 become
`\uXXXX`, and every other rune is written as itself. -/
def escapeChar (c : Char) : List Char :=
  if c = '"' then ['\\', '"']
  else if c = '\\' then ['\\', '\\']
  else if c = '\n' then ['\\', 'n']
  else if c = '\r' then ['\\', 'r']
  else if c = '\t' then ['\\', 't']
  else if c.toNat < 32 then
    ['\\', 'u', '0', '0', Nat.digitChar (c.toNat / 16), Nat.digitChar (c.toNat % 16)]
  else if c = '<' then ['\\', 'u', '0', '0', '3', 'c']
  else if c = '>' then ['\\', 'u', '0', '0', '3', 'e']
  else if c = '&' then ['\\', 'u', '0', '0', '2', '6']
  else if c.toNat = 0x2028 then ['\\', 'u', '2', '0', '2', '8']
  else if c.toNat = 0x2029 then ['\\', 'u', '2', '0', '2', '9']
  else [c]

/-- Escape every character of a string body. -/
def escapeList : List Char → List Char
  | [] => []
  | c :: cs => escapeChar c ++ escapeList cs

/-- Go JSON string encoding: the escaped body between double quotes. -/
def jsonQuote (s : String) : String :=
  String.mk ('"' :: escapeList s.data ++ ['"'])

/-- A Go struct field value as `encoding/json` classifies it here: a string
(always marshalable), or a value of a type `Marshal` rejects (channel,
function, complex), carrying the Go type name for the error message.  The
latter models the spec scenario of substituting a record type that cannot
be serialized. -/
inductive GoFieldValue where
  | str (s : String)
  | unsupported (typeName : String)
deriving DecidableEq

/-- Marshal the fields of a struct in declaration order; the first
unsupported value aborts with Go `UnsupportedTypeError` text. -/
def marshalFields : List (String × GoFieldValue) → Except String (List String)
  | [] => Except.ok []
  | (k, GoFieldValue.str v) :: rest =>
    match marshalFields rest with
    | Except.ok tail => Except.ok ((jsonQuote k ++ ":" ++ jsonQuote v) :: tail)
    | Except.error e => Except.error e
  | (_, GoFieldValue.unsupported tn) :: _ =>
    Except.error ("json: unsupported type: " ++ tn)

/-- Comma-join the rendered `"key":value` pairs. -/
def joinComma : List String → String
  | [] => ""
  | [x] => x
  | x :: xs => x ++ "," ++ joinComma xs

/-- Embedding of `json.Marshal` on a flat struct: `\x7b"k":"v",…\x7d` in
field order, or the error of the first unsupported field. -/
def jsonMarshalStruct (fields : List (String × GoFieldValue)) : Except String String :=
  match marshalFields fields with
  | Except.ok parts => Except.ok ("\x7b" ++ joinComma parts ++ "\x7d")
  | Except.error e => Except.error e

/-- The response record of `main.go`: two exported string fields. -/
structure ServiceResult where
  FormattedTime : String
  Greeting : String
deriving DecidableEq

/-- The fields `json.Marshal` sees for a `ServiceResult`, in declaration
order. -/
def ServiceResult.fields (sr : ServiceResult) : List (String × GoFieldValue) :=
  [("FormattedTime", GoFieldValue.str sr.FormattedTime),
   ("Greeting", GoFieldValue.str sr.Greeting)]

/-- Embedding of `json.Marshal(sr)` for the concrete record type. -/
def jsonMarshalServiceResult (sr : ServiceResult) : Except String String :=
  jsonMarshalStruct sr.fields

/-- An inbound HTTP request, as the parts `*http.Request` exposes that the
handler could have read. -/
structure Request where
  method : String
  path : String
  headers : List (String × String)
  body : String
deriving DecidableEq

/-- The response the handler leaves on its `http.ResponseWriter`: status,
explicitly set headers (in set order), body bytes. -/
structure Response where
  status : Nat
  headers : List (String × String)
  body : String
deriving DecidableEq

/-- Go `http.StatusInternalServerError`. -/
def statusInternalServerError : Nat := 500

/-- Embedding of `http.Error(w, msg, code)` from `net/http`: it sets
`Content-Type: text/plain; charset=utf-8` and `X-Content-Type-Options:
nosniff`, writes the status, and writes the message via `fmt.Fprintln`,
which appends a newline. -/
def httpError (msg : String) (code : Nat) : Response :=
  Response.mk code
    [("Content-Type", "text/plain; charset=utf-8"),
     ("X-Content-Type-Options", "nosniff")]
    (msg ++ "\n")

/-- The success path of the handler: `w.Header().Set("Content-Type",
"application/json")` then `w.Write(js)`, with the implicit 200 status. -/
def jsonResponse (js : String) : Response :=
  Response.mk 200 [("Content-Type", "application/json")] js

/-- The handler body after `json.Marshal`, generic in the marshaled record
fields: the error branch calls `http.Error` and returns; the success
branch writes the JSON.  The request is not consulted. -/
def handlerCore (fields : List (String × GoFieldValue)) (_r : Request) : Response :=
  match jsonMarshalStruct fields with
  | Except.error e => httpError e statusInternalServerError
  | Except.ok js => jsonResponse js

/-- Embedding of `handler` from `main.go` at the instant `now`:
`t := currentTime(); sr := ServiceResult\x7bt, "Hi there"\x7d;
js, err := json.Marshal(sr); …`. -/
def handler (now : GoTime) (r : Request) : Response :=
  handlerCore (ServiceResult.fields (ServiceResult.mk (currentTime now) "Hi there")) r

/-- The route pattern `main` registers with `http.HandleFunc`. -/
def mainRoutePattern : String := "/"

/-- The listen address of `main.go`: `http.ListenAndServe(":80", nil)`. -/
def mainListenAddr : String := ":80"

/-- The listen address of the earlier minimal variant (`part_000`):
`http.ListenAndServe(":8080", nil)`. -/
def minimalVariantListenAddr : String := ":8080"

/-- Reading back a decimal digit character recovers its value. -/
theorem digitVal_digitChar {d : Nat} (h : d < 10) : digitVal (Nat.digitChar d) = some d := by
  interval_cases d <;> decide

/-- Two-digit parsing inverts two-digit zero-padded formatting. -/
theorem parse2_pad2 (n : Nat) (h : n < 100) (rest : List Char) :
    parse2 (pad2 n ++ rest) = some (n, rest) := by
  have h1 : n / 10 < 10 := by omega
  have h2 : n % 10 < 10 := by omega
  simp [pad2, parse2, digitVal_digitChar h1, digitVal_digitChar h2]
  omega

/-- Two-digit parsing at the end of the input. -/
theorem parse2_pad2_nil (n : Nat) (h : n < 100) :
    parse2 (pad2 n) = some (n, []) := by
  have := parse2_pad2 n h []
  simpa using this

/-- A literal layout character consumes itself. -/
theorem expectChar_cons (c : Char) (rest : List Char) :
    expectChar c (c :: rest) = some rest := by
  simp [expectChar]

/-- Month-name parsing inverts month-name formatting for real months. -/
theorem parseMonth_monthChars {m : Nat} (h1 : 1 ≤ m) (h2 : m ≤ 12) (rest : List Char) :
    parseMonth (monthChars m ++ rest) = some (m, rest) := by
  interval_cases m <;> rfl

/-- Sign parsing inverts sign formatting. -/
theorem parseSign_signChar (off : Int) (rest : List Char) :
    parseSign (signChar off :: rest) = some ((if off < 0 then (-1 : Int) else 1), rest) := by
  by_cases h : off < 0
  · simp only [signChar, if_pos h]; rfl
  · simp only [signChar, if_neg h]; rfl

/-- A leap year keeps its leap status after the two-digit-year mapping of
Go `Parse` (a leap year maps to `2000` or to a non-century leap year with
the same residue modulo 4). -/
theorem isLeap_mapYear2 {y : Nat} (h : isLeap y = true) : isLeap (mapYear2 (y % 100)) = true := by
  unfold isLeap at h ⊢
  unfold mapYear2
  simp only [Bool.and_eq_true, beq_iff_eq, Bool.or_eq_true, bne_iff_ne, ne_eq] at h ⊢
  split <;> omega

/-- A day that is valid in the instant's own year is still valid in the
year recovered from its two low digits. -/
theorem day_le_daysInMonth_mapYear2 {m d y : Nat} (hm1 : 1 ≤ m) (hm2 : m ≤ 12)
    (hd : d ≤ daysInMonth m y) : d ≤ daysInMonth m (mapYear2 (y % 100)) := by
  interval_cases m <;> simp [daysInMonth] at hd ⊢ <;> try omega
  · -- February
    by_cases hL : isLeap y = true
    · rw [isLeap_mapYear2 hL]
      rw [hL] at hd
      simpa using hd
    · simp [hL] at hd
      split <;> omega

/-- No month has more than 31 days. -/
theorem daysInMonth_le (m y : Nat) : daysInMonth m y ≤ 31 := by
  unfold daysInMonth
  split <;> (try split) <;> omega

/-- Claim C4: every Time Formatter output renders the invocation instant
in the fixed RFC822Z layout, and parsing it back with the same layout
succeeds and agrees with the instant on day, month, year modulo 100,
hour, minute and zone offset (the wall-clock window to the minute). -/
theorem currentTime_roundtrip (t : GoTime) (h : t.wf) :
    ∃ t2 : GoTime, parseRFC822Z (currentTime t) = some t2 ∧
      t2.year % 100 = t.year % 100 ∧ t2.month = t.month ∧ t2.day = t.day ∧
      t2.hour = t.hour ∧ t2.minute = t.minute ∧ t2.offsetMinutes = t.offsetMinutes := by
  obtain ⟨y, m, d, hr, mi, sec, off⟩ := t
  obtain ⟨hm1, hm2, hd1, hd2, hhr, hmin, hsec, hoff⟩ := h
  dsimp only at hm1 hm2 hd1 hd2 hhr hmin hsec hoff ⊢
  have hd100 : d < 100 := by
    have := daysInMonth_le m y
    omega
  refine ⟨GoTime.mk (mapYear2 (y % 100)) m d hr mi 0 off, ?_, ?_, rfl, rfl, rfl, rfl, rfl⟩
  · have hohr : off.natAbs / 60 < 100 := by omega
    have homin : off.natAbs % 60 < 100 := by omega
    unfold currentTime formatRFC822Z parseRFC822Z
    dsimp only
    rw [parse2_pad2 d hd100]
    simp only [Option.bind_eq_bind]
    rw [Option.some_bind]
    rw [expectChar_cons]
    rw [Option.some_bind]
    rw [parseMonth_monthChars hm1 hm2]
    rw [Option.some_bind]
    rw [expectChar_cons]
    rw [Option.some_bind]
    rw [parse2_pad2 (y % 100) (by omega : y % 100 < 100)]
    rw [Option.some_bind]
    rw [expectChar_cons]
    rw [Option.some_bind]
    rw [parse2_pad2 hr (by omega)]
    rw [Option.some_bind]
    rw [expectChar_cons]
    rw [Option.some_bind]
    rw [parse2_pad2 mi (by omega)]
    rw [Option.some_bind]
    rw [expectChar_cons]
    rw [Option.some_bind]
    rw [parseSign_signChar]
    rw [Option.some_bind]
    rw [parse2_pad2 (off.natAbs / 60) hohr]
    rw [Option.some_bind]
    rw [parse2_pad2_nil (off.natAbs % 60) homin]
    rw [Option.some_bind]
    rw [if_pos rfl]
    rw [if_pos (⟨hhr, hmin, hd1, day_le_daysInMonth_mapYear2 hm1 hm2 hd2⟩ :
        hr < 24 ∧ mi < 60 ∧ 1 ≤ d ∧ d ≤ daysInMonth m (mapYear2 (y % 100)))]
    simp only [Option.some.injEq, GoTime.mk.injEq, true_and, and_true]
    split_ifs <;> omega
  · show mapYear2 (y % 100) % 100 = y % 100
    unfold mapYear2
    split <;> omega

/-- Claim C1: on every request the handler serializes successfully and
writes status 200, the single header `Content-Type: application/json`,
and a JSON body with exactly the keys `FormattedTime` and `Greeting`,
where `FormattedTime` is the Time Formatter output for this very request
instant. -/
theorem handler_success_response (now : GoTime) (r : Request) :
    handler now r =
      Response.mk 200 [("Content-Type", "application/json")]
        ("\x7b" ++ (jsonQuote "FormattedTime" ++ ":" ++ jsonQuote (currentTime now) ++ "," ++
          (jsonQuote "Greeting" ++ ":" ++ jsonQuote "Hi there")) ++ "\x7d") := rfl

/-- Claim C2: a request handled at wall-clock time
`2016-09-23T11:39:00+01:00` yields exactly the body
`\x7b"FormattedTime":"23 Sep 16 11:39 +0100","Greeting":"Hi there"\x7d`
(in this key order) with status 200. -/
theorem handler_response_at_20160923 (r : Request) :
    handler (GoTime.mk 2016 9 23 11 39 0 60) r =
      Response.mk 200 [("Content-Type", "application/json")]
        "\x7b\"FormattedTime\":\"23 Sep 16 11:39 +0100\",\"Greeting\":\"Hi there\"\x7d" := rfl

/-- Claim C3: in every response body the value of the `Greeting` key is
the literal string `"Hi there"`. -/
theorem handler_greeting_always_hi_there (now : GoTime) (r : Request) :
    ∃ ft, (handler now r).body =
      "\x7b" ++ (jsonQuote "FormattedTime" ++ ":" ++ ft ++ "," ++
        (jsonQuote "Greeting" ++ ":" ++ jsonQuote "Hi there")) ++ "\x7d" :=
  ⟨jsonQuote (currentTime now), rfl⟩

/-- Claim C6: marshalling a `ServiceResult` (two string fields) always
succeeds, so the 500 branch of the handler is unreachable for the
concrete record type and every response has status 200. -/
theorem serviceResult_marshal_never_fails (t g : String) (now : GoTime) (r : Request) :
    jsonMarshalServiceResult (ServiceResult.mk t g) =
      Except.ok ("\x7b" ++ (jsonQuote "FormattedTime" ++ ":" ++ jsonQuote t ++ "," ++
        (jsonQuote "Greeting" ++ ":" ++ jsonQuote g)) ++ "\x7d") ∧
    (handler now r).status = 200 :=
  ⟨rfl, rfl⟩

/-- Claim C7: the Time Formatter output depends only on the invocation
instant to the minute — two instants agreeing on date, hour, minute and
offset (the seconds may differ) format identically. -/
theorem currentTime_deterministic_to_minute (t1 t2 : GoTime)
    (hy : t1.year = t2.year) (hm : t1.month = t2.month) (hd : t1.day = t2.day)
    (hh : t1.hour = t2.hour) (hmi : t1.minute = t2.minute)
    (ho : t1.offsetMinutes = t2.offsetMinutes) :
    currentTime t1 = currentTime t2 := by
  obtain ⟨y1, m1, d1, h1, mi1, s1, o1⟩ := t1
  obtain ⟨y2, m2, d2, h2, mi2, s2, o2⟩ := t2
  dsimp only at hy hm hd hh hmi ho
  subst hy hm hd hh hmi ho
  rfl

/-- Witness for claim C7 at two concrete instants differing only in the
seconds field. -/
theorem currentTime_deterministic_witness :
    currentTime (GoTime.mk 2016 9 23 11 39 5 60) =
      currentTime (GoTime.mk 2016 9 23 11 39 42 60) :=
  currentTime_deterministic_to_minute _ _ rfl rfl rfl rfl rfl rfl

/-- Claim C8: the handler response is independent of the inbound request
— any two requests handled at the same instant get identical responses,
whatever their method, path, headers or body. -/
theorem handler_ignores_request (now : GoTime) (r1 r2 : Request) :
    handler now r1 = handler now r2 := rfl

/-- Claim C9: the final variant listens on the fixed literal port 80,
unlike the earlier minimal variant, which listened on 8080. -/
theorem listen_port_final_vs_minimal :
    mainListenAddr = ":80" ∧ minimalVariantListenAddr = ":8080" ∧
      mainListenAddr ≠ minimalVariantListenAddr := by
  refine ⟨rfl, rfl, ?_⟩
  decide

/-- Claim C10: for every request the handler produces exactly one
response — the `http.Error` 500 response when marshalling fails, the JSON
200 response when it succeeds, and never both, since `json.Marshal`
returns exactly one of an error and a byte sequence. -/
theorem handler_exactly_one_response (fields : List (String × GoFieldValue)) (r : Request) :
    ((∃ e, jsonMarshalStruct fields = Except.error e ∧
        handlerCore fields r = httpError e statusInternalServerError ∧
        (handlerCore fields r).status = 500) ∨
      (∃ js, jsonMarshalStruct fields = Except.ok js ∧
        handlerCore fields r = jsonResponse js ∧
        (handlerCore fields r).status = 200)) ∧
    ¬ ((∃ e, jsonMarshalStruct fields = Except.error e) ∧
        (∃ js, jsonMarshalStruct fields = Except.ok js)) := by
  constructor
  · cases hres : jsonMarshalStruct fields with
    | error e =>
      left
      exact ⟨e, rfl, by unfold handlerCore; rw [hres], by unfold handlerCore; rw [hres]; rfl⟩
    | ok js =>
      right
      exact ⟨js, rfl, by unfold handlerCore; rw [hres], by unfold handlerCore; rw [hres]; rfl⟩
  · rintro ⟨⟨e, he⟩, ⟨js, hjs⟩⟩
    rw [he] at hjs
    exact Except.noConfusion hjs

/-- Counterexample to claim C5 as stated: on a record with an
unmarshalable field the handler returns status 500, but the body is not
exactly the error description (`fmt.Fprintln` inside `http.Error` appends
a newline), and `http.Error` explicitly sets a `Content-Type` header
(`text/plain; charset=utf-8`) rather than leaving it unset. -/
theorem http_error_counterexample :
    jsonMarshalStruct [("Bad", GoFieldValue.unsupported "chan int")] =
      Except.error "json: unsupported type: chan int" ∧
    (handlerCore [("Bad", GoFieldValue.unsupported "chan int")]
        (Request.mk "GET" "/" [] "")).status = 500 ∧
    (handlerCore [("Bad", GoFieldValue.unsupported "chan int")]
        (Request.mk "GET" "/" [] "")).body ≠ "json: unsupported type: chan int" ∧
    ("Content-Type", "text/plain; charset=utf-8") ∈
      (handlerCore [("Bad", GoFieldValue.unsupported "chan int")]
        (Request.mk "GET" "/" [] "")).headers := by
  refine ⟨rfl, rfl, ?_, ?_⟩
  · decide
  · decide

/-- Claim C5 (amended): when serialization fails, the handler writes
status 500 with body equal to the error description followed by a
newline, and explicitly sets `Content-Type: text/plain; charset=utf-8` —
in particular the content type is not `application/json`. -/
theorem handlerCore_error_branch (fields : List (String × GoFieldValue)) (e : String)
    (r : Request) (h : jsonMarshalStruct fields = Except.error e) :
    handlerCore fields r = httpError e statusInternalServerError ∧
    (handlerCore fields r).status = 500 ∧
    (handlerCore fields r).body = e ++ "\n" ∧
    (handlerCore fields r).headers =
      [("Content-Type", "text/plain; charset=utf-8"),
        ("X-Content-Type-Options", "nosniff")] ∧
    ¬ ("Content-Type", "application/json") ∈ (handlerCore fields r).headers := by
  unfold handlerCore
  rw [h]
  refine ⟨rfl, rfl, rfl, rfl, ?_⟩
  rw [show (httpError e statusInternalServerError).headers =
    [("Content-Type", "text/plain; charset=utf-8"),
      ("X-Content-Type-Options", "nosniff")] from rfl]
  decide

/-- Witness for amended claim C5 at a concrete failing record. -/
theorem handlerCore_error_branch_witness :
    (handlerCore [("Bad", GoFieldValue.unsupported "chan int")]
        (Request.mk "GET" "/" [] "")).body =
      "json: unsupported type: chan int" ++ "\n" :=
  (handlerCore_error_branch [("Bad", GoFieldValue.unsupported "chan int")]
    "json: unsupported type: chan int" (Request.mk "GET" "/" [] "") rfl).2.2.1

/-- Witness for claim C4 at the concrete instant
`2016-09-23T11:39:00+01:00`. -/
theorem currentTime_roundtrip_witness :
    (GoTime.mk 2016 9 23 11 39 0 60).wf ∧
    (∃ t2 : GoTime,
      parseRFC822Z (currentTime (GoTime.mk 2016 9 23 11 39 0 60)) = some t2 ∧
      t2.year % 100 = (GoTime.mk 2016 9 23 11 39 0 60).year % 100 ∧
      t2.month = (GoTime.mk 2016 9 23 11 39 0 60).month ∧
      t2.day = (GoTime.mk 2016 9 23 11 39 0 60).day ∧
      t2.hour = (GoTime.mk 2016 9 23 11 39 0 60).hour ∧
      t2.minute = (GoTime.mk 2016 9 23 11 39 0 60).minute ∧
      t2.offsetMinutes = (GoTime.mk 2016 9 23 11 39 0 60).offsetMinutes) :=
  ⟨by decide, currentTime_roundtrip (GoTime.mk 2016 9 23 11 39 0 60) (by decide)⟩
